import Mathlib

/-!
Verification development for the `gollm` Go library (`llm` package).

The definitions below are shallow embeddings of the functions in
`llm/openai.go`, `llm/anthropic.go` and `llm/types.go`:

* the SSE byte stream consumed by the stream adapters is modelled as a
  `List Char`; `bufio.Reader.ReadBytes('\n')` is modelled by `readLineAux`,
  which returns the line including the `'\n'` delimiter together with the
  rest of the stream, and returns `none` when no full line is available
  (Go returns the partial data together with `io.EOF`, and both `Recv`
  implementations return the error in that case, discarding the partial
  data);
* `encoding/json.Unmarshal` into the provider response structs is not
  reimplemented; the two `Recv` functions and `AnthropicClient.Complete`
  take the decoding step as an explicit function argument
  (`List Char → Except String ...`).  Concrete theorems instantiate it
  with decoders whose behaviour on the concrete payloads involved agrees
  with Go's `encoding/json` (e.g. `[DONE]` is not valid JSON, so any
  faithful decoder rejects it);
* `time.Duration` values are modelled as `Int` nanoseconds, and the
  64-bit signed wrap-around of Go's arithmetic is made explicit with
  `wrap64` where it matters (`getRetryDelay`).
-/

set_option autoImplicit false

namespace GoLLM

/-- `ToolCall` from `llm/types.go` (the anonymous `Function` struct is
flattened into the two fields `functionName`/`functionArguments`). -/
structure ToolCall where
  id : String
  type : String
  functionName : String
  functionArguments : String
deriving Repr, DecidableEq

/-- `CompletionResponse` from `llm/types.go`. -/
structure CompletionResponse where
  content : String
  model : String
  finishReason : String
  toolCalls : List ToolCall
deriving Repr, DecidableEq

/-- `openaiMessage` from `llm/openai.go`. -/
structure OpenAIMessage where
  role : String
  content : String
  toolCalls : List ToolCall
  toolCallID : String
  name : String
deriving Repr, DecidableEq

/-- `choice` from `llm/openai.go`. -/
structure Choice where
  message : OpenAIMessage
  finishReason : String
  delta : OpenAIMessage
deriving Repr, DecidableEq

/-- `openaiResponse` from `llm/openai.go`; the optional `Error` struct is
modelled by its only field, the message. -/
structure OpenAIResponse where
  id : String
  choices : List Choice
  model : String
  error : Option String
deriving Repr, DecidableEq

/-- `contentBlock` from `llm/anthropic.go`. -/
structure ContentBlock where
  text : String
  type : String
deriving Repr, DecidableEq

/-- `anthropicResponse` from `llm/anthropic.go`. -/
structure AnthropicResponse where
  content : List ContentBlock
  model : String
  stopReason : String
  error : Option String
deriving Repr, DecidableEq

/-- Outcome of one `Recv` call, covering the four shapes a
`(*CompletionResponse, error)` pair takes in the Go code:
a fragment `(resp, nil)`, the pair `(nil, nil)` (Anthropic only),
end-of-stream `(nil, io.EOF)`, and any other error `(nil, err)`. -/
inductive RecvOutcome where
  | fragment (r : CompletionResponse)
  | nilResponse
  | eof
  | failure (msg : String)
deriving Repr, DecidableEq

/-- The ASCII part of the whitespace set trimmed by Go's
`bytes.TrimSpace` (only these bytes occur in the SSE framing). -/
def isSpaceByte (c : Char) : Bool :=
  c = ' ' ∨ c = '\t' ∨ c = '\n' ∨ c = '\r' ∨ c = '\x0b' ∨ c = '\x0c'

/-- Left part of `bytes.TrimSpace`. -/
def trimLeftSpace (s : List Char) : List Char :=
  s.dropWhile isSpaceByte

/-- Right part of `bytes.TrimSpace`. -/
def trimRightSpace (s : List Char) : List Char :=
  (s.reverse.dropWhile isSpaceByte).reverse

/-- `bytes.TrimSpace` on the bytes appearing in the SSE framing. -/
def trimSpace (s : List Char) : List Char :=
  trimLeftSpace (trimRightSpace s)

/-- The `"data: "` marker of the SSE framing. -/
def sseMarker : List Char := "data: ".toList

/-- The `"[DONE]"` terminal sentinel. -/
def doneSentinel : List Char := "[DONE]".toList

/-- `bytes.TrimPrefix p s`: drops `p` when it is a prefix of `s`,
otherwise returns `s` unchanged. -/
def dropMarker (p s : List Char) : List Char :=
  if p.isPrefixOf s then s.drop p.length else s

/-- `bufio.Reader.ReadBytes('\n')` on a pure stream: the returned line
includes the delimiter; `none` means the stream ends before a full line
is available (Go: `io.EOF`). -/
def readLineAux : List Char → Option (List Char × List Char)
  | [] => none
  | c :: cs =>
    if c = '\n' then some ([c], cs)
    else
      match readLineAux cs with
      | none => none
      | some (l, r) => some (c :: l, r)

theorem readLineAux_length {s l r : List Char} (h : readLineAux s = some (l, r)) :
    r.length < s.length := by
  induction s generalizing l r with
  | nil => simp [readLineAux] at h
  | cons c cs ih =>
    simp only [readLineAux] at h
    by_cases hc : c = '\n'
    · simp [hc] at h
      simp [← h.2]
    · simp only [hc, if_false] at h
      cases hr : readLineAux cs with
      | none => rw [hr] at h; simp at h
      | some pr =>
        rw [hr] at h
        cases pr with
        | mk l' r' =>
          simp at h
          have := ih (l := l') (r := r') hr
          simp [← h.2]
          omega

/-- Fuel-indexed version of `openAIStream.Recv` from `llm/openai.go`
(lines 328-372).  The loop `for { ... }` consumes at least one byte of
the stream per iteration, so any fuel above the stream length is enough;
`openAIRecv` below supplies such a fuel, and
`openAIRecvFuel_congr` shows the fuel is irrelevant.  The fuel-exhausted
value is unreachable for sufficient fuel.  The decode argument stands
for `json.Unmarshal` into `openaiResponse`. -/
def openAIRecvFuel (d : List Char → Except String OpenAIResponse) :
    Nat → List Char → RecvOutcome × List Char
  | 0, _ => (.eof, [])
  | fuel + 1, s =>
    match readLineAux s with
    | none => (.eof, [])
    | some (line, rest) =>
      let tl := trimSpace line
      if tl = [] then openAIRecvFuel d fuel rest
      else if sseMarker.isPrefixOf tl then
        let data := dropMarker sseMarker tl
        if trimSpace data = doneSentinel then (.eof, rest)
        else
          match d data with
          | .error e => (.failure ("failed to decode stream response: " ++ e), rest)
          | .ok resp =>
            match resp.error with
            | some m => (.failure ("OpenAI API error: " ++ m), rest)
            | none =>
              match resp.choices with
              | [] => openAIRecvFuel d fuel rest
              | ch :: _ =>
                (.fragment ⟨ch.delta.content, resp.model, ch.finishReason,
                  ch.delta.toolCalls⟩, rest)
      else openAIRecvFuel d fuel rest

/-- `openAIStream.Recv`: one pull on the stream, returning the outcome
and the remaining stream. -/
def openAIRecv (d : List Char → Except String OpenAIResponse)
    (s : List Char) : RecvOutcome × List Char :=
  openAIRecvFuel d (s.length + 1) s

theorem openAIRecvFuel_congr (d : List Char → Except String OpenAIResponse) :
    ∀ fuel fuel' s, s.length < fuel → s.length < fuel' →
      openAIRecvFuel d fuel s = openAIRecvFuel d fuel' s := by
  intro fuel
  induction fuel with
  | zero => intro fuel' s h; omega
  | succ n ih =>
    intro fuel' s h h'
    cases fuel' with
    | zero => omega
    | succ n' =>
      simp only [openAIRecvFuel]
      cases hr : readLineAux s with
      | none => rfl
      | some pr =>
        cases pr with
        | mk line rest =>
          have hlen := readLineAux_length hr
          have h1 : rest.length < n := by omega
          have h2 : rest.length < n' := by omega
          simp only
          by_cases hb : trimSpace line = []
          · simp only [hb, if_pos rfl]
            exact ih n' rest h1 h2
          · simp only [if_neg hb]
            by_cases hp : sseMarker.isPrefixOf (trimSpace line)
            · simp only [hp, if_true]
              by_cases hd : trimSpace (dropMarker sseMarker (trimSpace line)) = doneSentinel
              · simp [hd]
              · simp only [if_neg hd]
                cases d (dropMarker sseMarker (trimSpace line)) with
                | error e => rfl
                | ok resp =>
                  dsimp only
                  cases resp.error with
                  | some m => rfl
                  | none =>
                    dsimp only
                    cases resp.choices with
                    | nil => exact ih n' rest h1 h2
                    | cons ch tl => rfl
            · simp only [hp, if_false]
              exact ih n' rest h1 h2

/-- `anthropicStream.Recv` from `llm/anthropic.go` (lines 160-193).
No loop: each call reads exactly one line.  The raw line (with its
trailing newline, since the code applies no trimming) is checked for the
`"data: "` prefix; a line without it is an `invalid SSE format` error.
The decode argument stands for `json.Unmarshal` into
`anthropicResponse`; note it receives the payload including the trailing
`'\n'`.  `(.nilResponse)` models the `return nil, nil` paths. -/
def anthropicRecv (d : List Char → Except String AnthropicResponse)
    (s : List Char) : RecvOutcome × List Char :=
  match readLineAux s with
  | none => (.eof, [])
  | some (line, rest) =>
    if sseMarker.isPrefixOf line then
      let data := dropMarker sseMarker line
      if data = [] then (.nilResponse, rest)
      else
        match d data with
        | .error e => (.failure e, rest)
        | .ok resp =>
          match resp.error with
          | some m => (.failure ("anthropic API error: " ++ m), rest)
          | none =>
            match resp.content with
            | [] => (.nilResponse, rest)
            | cb :: _ => (.fragment ⟨cb.text, resp.model, resp.stopReason, []⟩, rest)
    else (.failure "invalid SSE format", rest)

theorem openAIRecv_of_readLine_none {d : List Char → Except String OpenAIResponse}
    {s : List Char} (h : readLineAux s = none) :
    openAIRecv d s = (.eof, []) := by
  simp [openAIRecv, openAIRecvFuel, h]

/-- When the first line is blank after trimming or lacks the `data: `
marker, `openAIStream.Recv` continues with the rest of the stream. -/
theorem openAIRecv_skip {d : List Char → Except String OpenAIResponse}
    {s line rest : List Char} (h : readLineAux s = some (line, rest))
    (hskip : trimSpace line = [] ∨ sseMarker.isPrefixOf (trimSpace line) = false) :
    openAIRecv d s = openAIRecv d rest := by
  have hlen := readLineAux_length h
  unfold openAIRecv
  have hs : s.length + 1 = (s.length - 1) + 1 + 1 := by omega
  conv_lhs => rw [openAIRecvFuel, h]
  rcases hskip with hb | hp
  · simp only [hb, if_pos rfl]
    exact openAIRecvFuel_congr d s.length (rest.length + 1) rest (by omega) (by omega)
  · by_cases hb : trimSpace line = []
    · simp only [hb, if_pos rfl]
      exact openAIRecvFuel_congr d s.length (rest.length + 1) rest (by omega) (by omega)
    · simp only [hb, if_neg, if_false, hp, Bool.false_eq_true]
      exact openAIRecvFuel_congr d s.length (rest.length + 1) rest (by omega) (by omega)

/-- When the first `data: ` payload trims to `[DONE]`,
`openAIStream.Recv` signals end of stream. -/
theorem openAIRecv_done {d : List Char → Except String OpenAIResponse}
    {s line rest : List Char} (h : readLineAux s = some (line, rest))
    (hb : trimSpace line ≠ [])
    (hp : sseMarker.isPrefixOf (trimSpace line) = true)
    (hd : trimSpace (dropMarker sseMarker (trimSpace line)) = doneSentinel) :
    openAIRecv d s = (.eof, rest) := by
  unfold openAIRecv
  rw [openAIRecvFuel, h]
  simp only [hb, if_neg, if_false, hp, if_true, hd, if_pos rfl]

/-- When the first `data: ` payload decodes to a response with no error
and no choices, `openAIStream.Recv` swallows the event and continues. -/
theorem openAIRecv_skip_empty_choices {d : List Char → Except String OpenAIResponse}
    {s line rest : List Char} {resp : OpenAIResponse}
    (h : readLineAux s = some (line, rest))
    (hb : trimSpace line ≠ [])
    (hp : sseMarker.isPrefixOf (trimSpace line) = true)
    (hd : trimSpace (dropMarker sseMarker (trimSpace line)) ≠ doneSentinel)
    (hdec : d (dropMarker sseMarker (trimSpace line)) = .ok resp)
    (herr : resp.error = none) (hch : resp.choices = []) :
    openAIRecv d s = openAIRecv d rest := by
  have hlen := readLineAux_length h
  unfold openAIRecv
  conv_lhs => rw [openAIRecvFuel, h]
  simp only [hb, if_neg, if_false, hp, if_true, hd, hdec, herr, hch]
  exact openAIRecvFuel_congr d s.length (rest.length + 1) rest (by omega) (by omega)

/-- When the first `data: ` payload decodes to a response with no error
and a first choice, `openAIStream.Recv` returns the delta fragment. -/
theorem openAIRecv_fragment {d : List Char → Except String OpenAIResponse}
    {s line rest : List Char} {resp : OpenAIResponse} {ch : Choice} {tail : List Choice}
    (h : readLineAux s = some (line, rest))
    (hb : trimSpace line ≠ [])
    (hp : sseMarker.isPrefixOf (trimSpace line) = true)
    (hd : trimSpace (dropMarker sseMarker (trimSpace line)) ≠ doneSentinel)
    (hdec : d (dropMarker sseMarker (trimSpace line)) = .ok resp)
    (herr : resp.error = none) (hch : resp.choices = ch :: tail) :
    openAIRecv d s =
      (.fragment ⟨ch.delta.content, resp.model, ch.finishReason, ch.delta.toolCalls⟩,
        rest) := by
  unfold openAIRecv
  rw [openAIRecvFuel, h]
  simp only [hb, if_neg, if_false, hp, if_true, hd, hdec, herr, hch]

/-- `HTTPError` from `llm/openai.go` together with the other error
shapes produced by the two clients (`llm/openai.go`, `llm/anthropic.go`):
transport failures (`request failed: ...` or the raw error for
Anthropic), decode failures, API-reported errors, the empty-result
errors, the `max retries exceeded: %w` wrapper and context
cancellation. -/
inductive CompletionError where
  | transport (msg : String)
  | httpError (statusCode : Nat) (msg : String)
  | apiError (msg : String)
  | decodeError (msg : String)
  | emptyResult
  | maxRetriesExceeded (last : CompletionError)
  | cancelled
deriving Repr, DecidableEq

deriving instance DecidableEq for Except

/-- The observable part of an `*http.Response`: status code and body
bytes. -/
structure HTTPResponse where
  statusCode : Nat
  body : List Char
deriving Repr, DecidableEq

/-- Result of a `CompleteStream` constructor: either an error or the
byte stream handed to the adapter, together with whether the response
body was closed inside the constructor. -/
structure StreamConstruction where
  result : Except CompletionError (List Char)
  bodyClosed : Bool
deriving Repr, DecidableEq

/-- `OpenAIClient.CompleteStream` (`llm/openai.go` lines 272-325),
from the point where the HTTP exchange has completed.  The argument is
the outcome of `httpClient.Do`.  On a non-200 status the code calls
`resp.Body.Close()` first and only then `io.ReadAll(resp.Body)`, so the
drain reads nothing and the `HTTPError` message is empty; the body is
closed in this path.  On status 200 the open body becomes the stream. -/
def openAICompleteStream (exchange : Except String HTTPResponse) : StreamConstruction :=
  match exchange with
  | .error e => ⟨.error (.transport ("request failed: " ++ e)), false⟩
  | .ok resp =>
    if resp.statusCode ≠ 200 then
      ⟨.error (.httpError resp.statusCode ""), true⟩
    else
      ⟨.ok resp.body, false⟩

/-- `AnthropicClient.CompleteStream` (`llm/anthropic.go` lines 120-157),
from the point where the HTTP exchange has completed.  The code never
reads `resp.StatusCode`: any completed exchange yields a stream over the
body, which is left open for the adapter. -/
def anthropicCompleteStream (exchange : Except String HTTPResponse) : StreamConstruction :=
  match exchange with
  | .error e => ⟨.error (.transport e), false⟩
  | .ok resp => ⟨.ok resp.body, false⟩

/-- `RetryConfig` from `llm/openai.go`; durations are `Int` nanoseconds
as in Go's `time.Duration`. -/
structure RetryConfig where
  maxRetries : Nat
  initialDelay : Int
  maxDelay : Int
  retryableStatusCodes : List Nat
deriving Repr, DecidableEq

/-- The defaults installed by `NewOpenAIClient` when no `RetryConfig` is
given: 3 retries, 1s initial delay, 5s max delay, retryable set
{429, 500, 502, 503}. -/
def defaultRetryConfig : RetryConfig :=
  ⟨3, 1000000000, 5000000000, [429, 500, 502, 503]⟩

/-- Reduction of an `Int` to the signed 64-bit value Go's `int64`
arithmetic produces. -/
def wrap64 (x : Int) : Int :=
  (x + 2 ^ 63) % 2 ^ 64 - 2 ^ 63

/-- Go's `1 << n` on 64-bit integers: zero for shift counts of 64 or
more, and the wrapped power of two otherwise. -/
def goShl1 (n : Nat) : Int :=
  if 64 ≤ n then 0 else wrap64 (2 ^ n)

/-- `OpenAIClient.getRetryDelay` (`llm/openai.go` lines 247-253):
`InitialDelay * (1 << uint(attempt-1))` in wrapping 64-bit arithmetic,
capped at `MaxDelay`.  For `attempt = 0` the Go conversion
`uint(attempt-1)` wraps to `2^64 - 1`, making the shift zero (this call
never happens: `Complete` only computes a delay for `attempt > 0`). -/
def getRetryDelay (c : RetryConfig) (attempt : Nat) : Int :=
  let shiftCount : Nat := if attempt = 0 then 2 ^ 64 - 1 else attempt - 1
  let delay := wrap64 (c.initialDelay * goShl1 shiftCount)
  if delay > c.maxDelay then c.maxDelay else delay

/-- `OpenAIClient.shouldRetry` (`llm/openai.go` lines 233-245): only an
`HTTPError` whose status code is in the retryable set is retried. -/
def shouldRetry (c : RetryConfig) : CompletionError → Bool
  | .httpError s _ => c.retryableStatusCodes.contains s
  | _ => false

/-- Observable outcome of `OpenAIClient.Complete`: result, number of
calls to the single-attempt `complete`, and the backoff delays actually
slept. -/
structure RunResult where
  result : Except CompletionError CompletionResponse
  attempts : Nat
  delays : List Int
deriving Repr, DecidableEq

/-- The retry loop of `OpenAIClient.Complete` (`llm/openai.go` lines
142-162).  `f i` is the outcome of the i-th call to `complete` (the
external world may differ between attempts); `cancel i` says whether the
context is done during the backoff wait preceding attempt `i`.
`remaining` counts loop iterations left (`MaxRetries + 1` at entry),
`attempt` is the Go loop counter, `lastErr` the last stored error. -/
def completeAux (c : RetryConfig) (f : Nat → Except CompletionError CompletionResponse)
    (cancel : Nat → Bool) :
    Nat → Nat → CompletionError → List Int → RunResult
  | 0, attempt, lastErr, delays => ⟨.error (.maxRetriesExceeded lastErr), attempt, delays⟩
  | remaining + 1, attempt, _lastErr, delays =>
    if 0 < attempt ∧ cancel attempt = true then
      ⟨.error .cancelled, attempt, delays⟩
    else
      let delays' := if 0 < attempt then delays ++ [getRetryDelay c attempt] else delays
      match f attempt with
      | .ok r => ⟨.ok r, attempt + 1, delays'⟩
      | .error e =>
        if shouldRetry c e = true then
          completeAux c f cancel remaining (attempt + 1) e delays'
        else
          ⟨.error e, attempt + 1, delays'⟩

/-- `OpenAIClient.Complete`: run the retry loop from attempt 0 with
`MaxRetries + 1` iterations available.  The initial `lastErr` models
Go's `nil`; it is unreachable because the loop body runs at least
once. -/
def openAIComplete (c : RetryConfig)
    (f : Nat → Except CompletionError CompletionResponse)
    (cancel : Nat → Bool) : RunResult :=
  completeAux c f cancel (c.maxRetries + 1) 0 (.transport "") []

/-- `AnthropicClient.Complete` (`llm/anthropic.go` lines 60-111), from
the point where the HTTP exchange has completed.  There is no retry loop
and the status code is never read: the body is decoded regardless of
status (the decode argument stands for `json.NewDecoder(..).Decode`),
an error object is an API error, an empty content list is the
empty-result error, and otherwise the first content block is returned. -/
def anthropicComplete (d : List Char → Except String AnthropicResponse)
    (exchange : Except String HTTPResponse) :
    Except CompletionError CompletionResponse :=
  match exchange with
  | .error e => .error (.transport e)
  | .ok resp =>
    match d resp.body with
    | .error e => .error (.decodeError e)
    | .ok ar =>
      match ar.error with
      | some m => .error (.apiError ("anthropic API error: " ++ m))
      | none =>
        match ar.content with
        | [] => .error .emptyResult
        | cb :: _ => .ok ⟨cb.text, ar.model, ar.stopReason, []⟩

/-- Extract the error of a failed attempt (total helper used only to
state properties; the default case is never reached under the
hypotheses of the theorems using it). -/
def errOf : Except CompletionError CompletionResponse → CompletionError
  | .error e => e
  | .ok _ => .transport ""

theorem completeAux_exhaust (c : RetryConfig)
    (f : Nat → Except CompletionError CompletionResponse) (cancel : Nat → Bool)
    (hc : ∀ i, cancel i = false) :
    ∀ remaining attempt lastErr delays,
      (∀ i, attempt ≤ i → i < attempt + remaining →
        ∃ e, f i = .error e ∧ shouldRetry c e = true) →
      (completeAux c f cancel remaining attempt lastErr delays).result =
        .error (.maxRetriesExceeded
          (if remaining = 0 then lastErr else errOf (f (attempt + remaining - 1)))) ∧
      (completeAux c f cancel remaining attempt lastErr delays).attempts =
        attempt + remaining := by
  intro remaining
  induction remaining with
  | zero =>
    intro attempt lastErr delays _
    simp [completeAux]
  | succ r ih =>
    intro attempt lastErr delays hf
    obtain ⟨e, hfe, hre⟩ := hf attempt (le_refl _) (by omega)
    have hcond : ¬ (0 < attempt ∧ cancel attempt = true) := by simp [hc attempt]
    rw [completeAux, if_neg hcond]
    dsimp only
    rw [hfe]
    dsimp only
    rw [if_pos hre]
    have hf' : ∀ i, attempt + 1 ≤ i → i < attempt + 1 + r →
        ∃ e, f i = .error e ∧ shouldRetry c e = true := by
      intro i hi1 hi2
      exact hf i (by omega) (by omega)
    obtain ⟨hres, hatt⟩ :=
      ih (attempt + 1) e (if 0 < attempt then delays ++ [getRetryDelay c attempt] else delays) hf'
    refine ⟨?_, by rw [hatt]; omega⟩
    rw [hres]
    have hidx : attempt + 1 + r - 1 = attempt + r := by omega
    have hidx2 : attempt + (r + 1) - 1 = attempt + r := by omega
    rcases Nat.eq_zero_or_pos r with hr | hr
    · subst hr
      simp [errOf, hfe]
    · have hr0 : r ≠ 0 := by omega
      simp [hr0, hidx, hidx2]

theorem completeAux_success (c : RetryConfig)
    (f : Nat → Except CompletionError CompletionResponse) (cancel : Nat → Bool)
    (hc : ∀ i, cancel i = false) :
    ∀ remaining attempt lastErr delays k r, attempt ≤ k → k < attempt + remaining →
      (∀ i, attempt ≤ i → i < k →
        ∃ e, f i = .error e ∧ shouldRetry c e = true) →
      f k = .ok r →
      (completeAux c f cancel remaining attempt lastErr delays).result = .ok r ∧
      (completeAux c f cancel remaining attempt lastErr delays).attempts = k + 1 := by
  intro remaining
  induction remaining with
  | zero =>
    intro attempt lastErr delays k r h1 h2 _ _
    omega
  | succ rem ih =>
    intro attempt lastErr delays k r h1 h2 hf hk
    have hcond : ¬ (0 < attempt ∧ cancel attempt = true) := by simp [hc attempt]
    rw [completeAux, if_neg hcond]
    dsimp only
    rcases Nat.eq_or_lt_of_le h1 with heq | hlt
    · subst heq
      rw [hk]
      exact ⟨rfl, rfl⟩
    · obtain ⟨e, hfe, hre⟩ := hf attempt (le_refl _) hlt
      rw [hfe]
      dsimp only
      rw [if_pos hre]
      exact ih (attempt + 1)
        e (if 0 < attempt then delays ++ [getRetryDelay c attempt] else delays) k r
        (by omega) (by omega) (fun i hi1 hi2 => hf i (by omega) hi2) hk

theorem completeAux_cancel (c : RetryConfig)
    (f : Nat → Except CompletionError CompletionResponse) (cancel : Nat → Bool) :
    ∀ remaining attempt lastErr delays j, attempt ≤ j → j < attempt + remaining → 0 < j →
      (∀ i, attempt ≤ i → i < j →
        cancel i = false ∧ ∃ e, f i = .error e ∧ shouldRetry c e = true) →
      cancel j = true →
      (completeAux c f cancel remaining attempt lastErr delays).result = .error .cancelled ∧
      (completeAux c f cancel remaining attempt lastErr delays).attempts = j := by
  intro remaining
  induction remaining with
  | zero =>
    intro attempt lastErr delays j h1 h2 _ _ _
    omega
  | succ rem ih =>
    intro attempt lastErr delays j h1 h2 hj hbefore hcj
    rcases Nat.eq_or_lt_of_le h1 with heq | hlt
    · subst heq
      rw [completeAux, if_pos ⟨hj, hcj⟩]
      exact ⟨rfl, rfl⟩
    · obtain ⟨hci, e, hfe, hre⟩ := hbefore attempt (le_refl _) hlt
      have hcond : ¬ (0 < attempt ∧ cancel attempt = true) := by simp [hci]
      rw [completeAux, if_neg hcond]
      dsimp only
      rw [hfe]
      dsimp only
      rw [if_pos hre]
      exact ih (attempt + 1) e
        (if 0 < attempt then delays ++ [getRetryDelay c attempt] else delays) j
        (by omega) (by omega) hj (fun i hi1 hi2 => hbefore i (by omega) hi2) hcj

theorem wrap64_eq_self {x : Int} (h1 : -(2 ^ 63) ≤ x) (h2 : x < 2 ^ 63) :
    wrap64 x = x := by
  rw [wrap64]
  have e1 : (2:Int) ^ 63 = 9223372036854775808 := by norm_num
  have e2 : (2:Int) ^ 64 = 18446744073709551616 := by norm_num
  rw [e1, e2] at *
  rw [Int.emod_eq_of_lt (by omega) (by omega)]
  omega

/-- An all-zero `openaiMessage`, the value Go's JSON decoding gives a
missing `delta`/`message` object. -/
def emptyMsg : OpenAIMessage := ⟨"", "", [], "", ""⟩

/-- Decoder double that accepts every payload as a one-choice event
whose delta content is `later` (used to exhibit data that follows the
`[DONE]` sentinel). -/
def laterDecoder : List Char → Except String OpenAIResponse :=
  fun _ => .ok ⟨"", [⟨emptyMsg, "", ⟨"assistant", "later", [], "", ""⟩⟩], "m", none⟩

/-- Decoder double that rejects every payload, as `encoding/json` does
on the non-JSON payloads it is applied to in the theorems below (in
particular `[DONE]` is not valid JSON). -/
def rejectAllAnthropic : List Char → Except String AnthropicResponse :=
  fun _ => .error "invalid json"

/-- Decoder double mapping the payload `p1` to a one-choice `Hello`
delta and `p2` to a one-choice `(space)World` delta, as
`encoding/json` would decode the corresponding streamed chunks. -/
def helloWorldDecoder : List Char → Except String OpenAIResponse :=
  fun s =>
    if s = "p1".toList then
      .ok ⟨"", [⟨emptyMsg, "", ⟨"", "Hello", [], "", ""⟩⟩], "", none⟩
    else if s = "p2".toList then
      .ok ⟨"", [⟨emptyMsg, "", ⟨"", " World", [], "", ""⟩⟩], "", none⟩
    else .error "invalid json"

/-- Decoder double mapping `ping` to a response with zero choices and
`p1` to a one-choice `Hello` delta. -/
def emptyChoicesDecoder : List Char → Except String OpenAIResponse :=
  fun s =>
    if s = "ping".toList then .ok ⟨"", [], "", none⟩
    else if s = "p1".toList then
      .ok ⟨"", [⟨emptyMsg, "", ⟨"", "Hello", [], "", ""⟩⟩], "", none⟩
    else .error "invalid json"

/-- Decoder double mapping the payload `ec` (with the trailing newline
the Anthropic adapter leaves on it) to a response with an empty content
list. -/
def emptyContentDecoder : List Char → Except String AnthropicResponse :=
  fun s =>
    if s = "ec\n".toList then .ok ⟨[], "m", "", none⟩
    else .error "invalid json"

/-- Attempt oracle that always fails with HTTP 429. -/
def alwaysRateLimited : Nat → Except CompletionError CompletionResponse :=
  fun _ => .error (.httpError 429 "rate limited")

/-- Attempt oracle failing with HTTP 503 twice, then succeeding. -/
def succeedAtTwo : Nat → Except CompletionError CompletionResponse :=
  fun i => if i < 2 then .error (.httpError 503 "unavailable")
           else .ok ⟨"hi", "m", "stop", []⟩

/-- Attempt oracle that fails with a JSON decode error. -/
def decodeFailAttempt : Nat → Except CompletionError CompletionResponse :=
  fun _ => .error (.decodeError "bad json")

/-- A context that is never cancelled. -/
def noCancel : Nat → Bool := fun _ => false

/-- A context whose cancellation fires during the backoff wait that
precedes attempt 1. -/
def cancelAtOne : Nat → Bool := fun i => i == 1

/-- Claim C1 (counterexample): the stream adapters keep no terminal
state.  After `openAIStream.Recv` returns end-of-stream for the
`[DONE]` sentinel, a further `Recv` call on a stream that still holds a
later `data: ` event re-enters the decode loop and returns that later
fragment instead of end-of-stream. -/
theorem recvAfterDoneReturnsFragment :
    openAIRecv laterDecoder ("data: [DONE]\ndata: x\n".toList) =
      (.eof, "data: x\n".toList) ∧
    openAIRecv laterDecoder ("data: x\n".toList) =
      (.fragment ⟨"later", "m", "", []⟩, []) ∧
    RecvOutcome.fragment ⟨"later", "m", "", []⟩ ≠ RecvOutcome.eof := by
  refine ⟨by decide, by decide, by decide⟩

/-- Claim C1 (amended): once `Recv` has returned end-of-stream with the
underlying stream exhausted — the situation after a final `[DONE]`
event — every subsequent `Recv` returns end-of-stream again, for both
adapters; the adapters do not, however, latch a terminal state, so this
relies on the stream being exhausted. -/
theorem recvTerminalIdempotentOnExhaustion :
    (∀ d : List Char → Except String OpenAIResponse,
      openAIRecv d ("data: [DONE]\n".toList) = (.eof, [])) ∧
    (∀ d : List Char → Except String OpenAIResponse,
      openAIRecv d [] = (.eof, [])) ∧
    (∀ d : List Char → Except String AnthropicResponse,
      anthropicRecv d [] = (.eof, [])) :=
  ⟨fun _ => rfl, fun _ => rfl, fun _ => rfl⟩

/-- Claim C2 (code bug): the OpenAI adapter returns end-of-stream for a
`[DONE]` event, and the `Hello`, `(space)World`, `[DONE]` sequence
yields both fragments and then end-of-stream; but the Anthropic adapter
has no `[DONE]` check at all — it hands the sentinel (with its trailing
newline) to the JSON decoder, which rejects it, so `Recv` returns a
decode error, not end-of-stream, contradicting the repository's own
`TestAnthropicClient_CompleteStream`. -/
theorem doneSentinelOpenAIVsAnthropic :
    openAIRecv helloWorldDecoder ("data: p1\ndata: p2\ndata: [DONE]\n".toList) =
      (.fragment ⟨"Hello", "", "", []⟩, "data: p2\ndata: [DONE]\n".toList) ∧
    openAIRecv helloWorldDecoder ("data: p2\ndata: [DONE]\n".toList) =
      (.fragment ⟨" World", "", "", []⟩, "data: [DONE]\n".toList) ∧
    openAIRecv helloWorldDecoder ("data: [DONE]\n".toList) = (.eof, []) ∧
    anthropicRecv rejectAllAnthropic ("data: [DONE]\n\n".toList) =
      (.failure "invalid json", "\n".toList) ∧
    RecvOutcome.failure "invalid json" ≠ RecvOutcome.eof := by
  refine ⟨by decide, by decide, by decide, by decide, by decide⟩

/-- Claim C3 (code bug): the OpenAI adapter skips a blank separator
line and continues with the rest of the stream, but the Anthropic
adapter rejects any line without the `data: ` prefix — including the
blank SSE separator — with an `invalid SSE format` error, contradicting
the repository's own `TestAnthropicClient_CompleteStream`, which feeds
`\n\n`-separated events. -/
theorem blankLineOpenAIVsAnthropic :
    (∀ (d : List Char → Except String OpenAIResponse) (s : List Char),
      openAIRecv d ('\n' :: s) = openAIRecv d s) ∧
    anthropicRecv rejectAllAnthropic ("\ndata: x\n".toList) =
      (.failure "invalid SSE format", "data: x\n".toList) ∧
    RecvOutcome.failure "invalid SSE format" ≠ RecvOutcome.eof := by
  refine ⟨?_, by decide, by decide⟩
  intro d s
  have h : readLineAux ('\n' :: s) = some (['\n'], s) := by simp [readLineAux]
  exact openAIRecv_skip h (Or.inl (by decide))

/-- Claim C4 (code bug): on a non-200 status `OpenAIClient.CompleteStream`
returns an `HTTPError` immediately and closes the response body (it
closes before the drain, so the drained message is empty), but
`AnthropicClient.CompleteStream` never reads the status code: on the
same 401 exchange it returns a live stream with a nil error and the
body open, contradicting the repository's own
`TestAnthropicClient_CompleteStream` (`API error` case). -/
theorem streamConstructionStatusCheck :
    openAICompleteStream (.ok ⟨401, "unauthorized".toList⟩) =
      ⟨.error (.httpError 401 ""), true⟩ ∧
    anthropicCompleteStream (.ok ⟨401, "unauthorized".toList⟩) =
      ⟨.ok "unauthorized".toList, false⟩ ∧
    (∀ ex : Except String HTTPResponse,
      (anthropicCompleteStream ex).bodyClosed = false) := by
  refine ⟨by decide, by decide, ?_⟩
  intro ex
  cases ex <;> rfl

/-- Claim C5: with every attempt failing on a retryable HTTP status,
`OpenAIClient.Complete` makes exactly `MaxRetries + 1` attempts and
returns the `max retries exceeded` error wrapping the last underlying
error; and when the first success comes after `k ≤ MaxRetries`
retryable failures, it returns that success having made `k + 1`
attempts. -/
theorem completeRetryBudget (c : RetryConfig)
    (f : Nat → Except CompletionError CompletionResponse) (cancel : Nat → Bool)
    (hc : ∀ i, cancel i = false) :
    ((∀ i, i ≤ c.maxRetries → ∃ s m, f i = .error (.httpError s m) ∧
        c.retryableStatusCodes.contains s = true) →
      (openAIComplete c f cancel).result =
        .error (.maxRetriesExceeded (errOf (f c.maxRetries))) ∧
      (openAIComplete c f cancel).attempts = c.maxRetries + 1) ∧
    (∀ k r, k ≤ c.maxRetries →
      (∀ i, i < k → ∃ s m, f i = .error (.httpError s m) ∧
        c.retryableStatusCodes.contains s = true) →
      f k = .ok r →
      (openAIComplete c f cancel).result = .ok r ∧
      (openAIComplete c f cancel).attempts = k + 1) := by
  constructor
  · intro hall
    have hf : ∀ i, 0 ≤ i → i < 0 + (c.maxRetries + 1) →
        ∃ e, f i = .error e ∧ shouldRetry c e = true := by
      intro i _ hi
      obtain ⟨s, m, hfe, hs⟩ := hall i (by omega)
      exact ⟨.httpError s m, hfe, by simpa [shouldRetry] using hs⟩
    obtain ⟨h1, h2⟩ :=
      completeAux_exhaust c f cancel hc (c.maxRetries + 1) 0 (.transport "") [] hf
    constructor
    · rw [openAIComplete, h1]
      simp
    · rw [openAIComplete, h2]
      omega
  · intro k r hk hpre hsucc
    have hf : ∀ i, 0 ≤ i → i < k →
        ∃ e, f i = .error e ∧ shouldRetry c e = true := by
      intro i _ hi
      obtain ⟨s, m, hfe, hs⟩ := hpre i hi
      exact ⟨.httpError s m, hfe, by simpa [shouldRetry] using hs⟩
    exact completeAux_success c f cancel hc (c.maxRetries + 1) 0 (.transport "") [] k r
      (by omega) (by omega) (fun i hi1 hi2 => hf i hi1 hi2) hsucc

/-- Claim C5 witness: with the default policy, four persistently
rate-limited attempts exhaust the budget, and two 503 failures followed
by a success give the success on the third attempt. -/
theorem completeRetryBudget_witness :
    (openAIComplete defaultRetryConfig alwaysRateLimited noCancel).result =
      .error (.maxRetriesExceeded (.httpError 429 "rate limited")) ∧
    (openAIComplete defaultRetryConfig alwaysRateLimited noCancel).attempts = 4 ∧
    (openAIComplete defaultRetryConfig succeedAtTwo noCancel).result =
      .ok ⟨"hi", "m", "stop", []⟩ ∧
    (openAIComplete defaultRetryConfig succeedAtTwo noCancel).attempts = 3 := by
  have h1 := (completeRetryBudget defaultRetryConfig alwaysRateLimited noCancel
    (fun _ => rfl)).1 (fun i _ => ⟨429, "rate limited", rfl, by decide⟩)
  have h2 := (completeRetryBudget defaultRetryConfig succeedAtTwo noCancel
    (fun _ => rfl)).2 2 ⟨"hi", "m", "stop", []⟩ (by decide)
    (fun i hi => ⟨503, "unavailable", by simp [succeedAtTwo, hi], by decide⟩) rfl
  exact ⟨h1.1, h1.2, h2.1, h2.2⟩

/-- Claim C7: an attempt error that is not a retryable `HTTPError` is
returned as-is after exactly one attempt, with no backoff delay slept;
transport, decode, API and empty-result errors are never retryable. -/
theorem completeNonRetryable (c : RetryConfig)
    (f : Nat → Except CompletionError CompletionResponse) (cancel : Nat → Bool)
    (e : CompletionError) (h0 : f 0 = .error e) (hnr : shouldRetry c e = false) :
    openAIComplete c f cancel = ⟨.error e, 1, []⟩ ∧
    (∀ m, shouldRetry c (.transport m) = false) ∧
    (∀ m, shouldRetry c (.decodeError m) = false) ∧
    (∀ m, shouldRetry c (.apiError m) = false) ∧
    shouldRetry c .emptyResult = false := by
  refine ⟨?_, fun _ => rfl, fun _ => rfl, fun _ => rfl, rfl⟩
  rw [openAIComplete, completeAux, if_neg (by simp)]
  dsimp only
  rw [h0]
  dsimp only
  rw [if_neg (by simp [hnr])]
  simp

/-- Claim C7 witness: a decode failure on the first attempt is returned
immediately: one attempt, no delays. -/
theorem completeNonRetryable_witness :
    openAIComplete defaultRetryConfig decodeFailAttempt noCancel =
      ⟨.error (.decodeError "bad json"), 1, []⟩ :=
  (completeNonRetryable defaultRetryConfig decodeFailAttempt noCancel
    (.decodeError "bad json") rfl rfl).1

/-- Claim C8: if cancellation fires during the backoff wait preceding
attempt `j` (after `j` retryable failures), `Complete` returns the
cancellation error — never the retries-exhausted error — having made
exactly `j` attempts; the outcome does not depend on what attempt `j`
or any later attempt would have returned, so that call is never
issued. -/
theorem completeCancelDuringBackoff (c : RetryConfig)
    (f : Nat → Except CompletionError CompletionResponse) (cancel : Nat → Bool)
    (j : Nat) (h1 : 1 ≤ j) (h2 : j ≤ c.maxRetries)
    (hf : ∀ i, i < j → ∃ s m, f i = .error (.httpError s m) ∧
      c.retryableStatusCodes.contains s = true)
    (hcb : ∀ i, i < j → cancel i = false)
    (hcj : cancel j = true) :
    (openAIComplete c f cancel).result = .error .cancelled ∧
    (openAIComplete c f cancel).attempts = j ∧
    (∀ e, (openAIComplete c f cancel).result ≠ .error (.maxRetriesExceeded e)) ∧
    (∀ g, (∀ i, i < j → g i = f i) →
      (openAIComplete c g cancel).result = .error .cancelled ∧
      (openAIComplete c g cancel).attempts = j) := by
  have key : ∀ (g : Nat → Except CompletionError CompletionResponse),
      (∀ i, i < j → g i = f i) →
      (openAIComplete c g cancel).result = .error .cancelled ∧
      (openAIComplete c g cancel).attempts = j := by
    intro g hg
    refine completeAux_cancel c g cancel (c.maxRetries + 1) 0 (.transport "") [] j
      (by omega) (by omega) (by omega) ?_ hcj
    intro i _ hi2
    refine ⟨hcb i hi2, ?_⟩
    obtain ⟨s, m, hfe, hs⟩ := hf i hi2
    exact ⟨.httpError s m, by rw [hg i hi2, hfe], by simpa [shouldRetry] using hs⟩
  obtain ⟨r1, r2⟩ := key f (fun _ _ => rfl)
  refine ⟨r1, r2, ?_, key⟩
  intro e h
  rw [r1] at h
  simp at h

/-- Claim C8 witness: with cancellation firing during the first backoff
wait after a 429 failure, the run is cancelled with exactly one attempt
made. -/
theorem completeCancelDuringBackoff_witness :
    (openAIComplete defaultRetryConfig alwaysRateLimited cancelAtOne).result =
      .error .cancelled ∧
    (openAIComplete defaultRetryConfig alwaysRateLimited cancelAtOne).attempts = 1 := by
  have h := completeCancelDuringBackoff defaultRetryConfig alwaysRateLimited cancelAtOne 1
    (by decide) (by decide)
    (fun i _ => ⟨429, "rate limited", rfl, by decide⟩)
    (fun i hi => by interval_cases i; decide)
    (by decide)
  exact ⟨h.1, h.2.1⟩

/-- Claim C9 (counterexample): the Go shift `1 << uint(attempt-1)` is
64-bit: at attempt 65 the shift is zero, so the computed delay is 0,
while the specified formula `min(initial_delay * 2^(n-1), max_delay)`
gives the 5-second cap. -/
theorem getRetryDelayOverflow :
    getRetryDelay defaultRetryConfig 65 = 0 ∧
    min (defaultRetryConfig.initialDelay * 2 ^ (65 - 1))
      defaultRetryConfig.maxDelay = 5000000000 ∧
    getRetryDelay defaultRetryConfig 65 ≠
      min (defaultRetryConfig.initialDelay * 2 ^ (65 - 1))
        defaultRetryConfig.maxDelay := by
  refine ⟨by decide, by decide, by decide⟩

/-- Claim C9 (amended): for every attempt `n ≥ 1` whose exact product
`initial_delay * 2^(n-1)` fits below `2^63` (so no 64-bit overflow —
always the case for the default policy's attempts 1..3), the computed
delay is `min(initial_delay * 2^(n-1), max_delay)`; the default policy
gives 1s, 2s, 4s. -/
theorem getRetryDelayFormula (c : RetryConfig) (n : Nat) (h1 : 1 ≤ n)
    (hpos : 0 < c.initialDelay)
    (hfit : c.initialDelay * 2 ^ (n - 1) < 2 ^ 63) :
    getRetryDelay c n = min (c.initialDelay * 2 ^ (n - 1)) c.maxDelay ∧
    getRetryDelay defaultRetryConfig 1 = 1000000000 ∧
    getRetryDelay defaultRetryConfig 2 = 2000000000 ∧
    getRetryDelay defaultRetryConfig 3 = 4000000000 := by
  refine ⟨?_, by decide, by decide, by decide⟩
  have hn0 : n ≠ 0 := by omega
  have hpow_pos : (0:Int) < 2 ^ (n - 1) := by positivity
  have hpow_lt : (2:Int) ^ (n - 1) < 2 ^ 63 := by
    calc (2:Int) ^ (n - 1) = 1 * 2 ^ (n - 1) := (one_mul _).symm
    _ ≤ c.initialDelay * 2 ^ (n - 1) := by
        exact mul_le_mul_of_nonneg_right (by omega) (le_of_lt hpow_pos)
    _ < 2 ^ 63 := hfit
  have hexp : n - 1 < 64 := by
    by_contra hcon
    push_neg at hcon
    have hmono : (2:Int) ^ 63 ≤ 2 ^ (n - 1) :=
      pow_le_pow_right₀ (by norm_num) (by omega)
    omega
  have hshift : goShl1 (n - 1) = 2 ^ (n - 1) := by
    rw [goShl1, if_neg (by omega)]
    exact wrap64_eq_self
      (le_trans (by norm_num) (le_of_lt hpow_pos)) hpow_lt
  rw [getRetryDelay]
  simp only [hn0, if_false, hshift]
  rw [wrap64_eq_self
    (le_trans (by norm_num) (le_of_lt (mul_pos hpos hpow_pos))) hfit]
  rcases le_or_lt (c.initialDelay * 2 ^ (n - 1)) c.maxDelay with hle | hlt
  · rw [if_neg (not_lt.mpr hle), min_eq_left hle]
  · rw [if_pos hlt, min_eq_right (le_of_lt hlt)]

/-- Claim C9 witness: at attempt 3 with the default policy the formula
holds and the delay is 4 seconds. -/
theorem getRetryDelayFormula_witness :
    getRetryDelay defaultRetryConfig 3 =
      min (defaultRetryConfig.initialDelay * 2 ^ (3 - 1))
        defaultRetryConfig.maxDelay :=
  (getRetryDelayFormula defaultRetryConfig 3 (by decide) (by decide) (by decide)).1

/-- Claim C6: an OpenAI-style streamed event whose payload decodes to
zero choices is swallowed — `Recv` loops on to the next event without
yielding anything — while an Anthropic-style event whose payload
decodes to an empty content list is surfaced to the caller as the
neutral `(nil, nil)` pair rather than an error. -/
theorem decodeFragmentAsymmetry :
    (∀ (d : List Char → Except String OpenAIResponse) (s line rest : List Char)
        (resp : OpenAIResponse),
      readLineAux s = some (line, rest) →
      trimSpace line ≠ [] →
      sseMarker.isPrefixOf (trimSpace line) = true →
      trimSpace (dropMarker sseMarker (trimSpace line)) ≠ doneSentinel →
      d (dropMarker sseMarker (trimSpace line)) = .ok resp →
      resp.error = none → resp.choices = [] →
      openAIRecv d s = openAIRecv d rest) ∧
    (∀ (d : List Char → Except String AnthropicResponse) (s line rest : List Char)
        (resp : AnthropicResponse),
      readLineAux s = some (line, rest) →
      sseMarker.isPrefixOf line = true →
      dropMarker sseMarker line ≠ [] →
      d (dropMarker sseMarker line) = .ok resp →
      resp.error = none → resp.content = [] →
      anthropicRecv d s = (.nilResponse, rest)) := by
  constructor
  · intro d s line rest resp h hb hp hd hdec herr hch
    exact openAIRecv_skip_empty_choices h hb hp hd hdec herr hch
  · intro d s line rest resp h hp hne hdec herr hct
    simp [anthropicRecv, h, hp, hne, hdec, herr, hct]

/-- Claim C6 witness: a zero-choice OpenAI event (`ping` payload) is
skipped and the following `Hello` event is returned by the same call,
while an Anthropic empty-content event yields the neutral pair. -/
theorem decodeFragmentAsymmetry_witness :
    openAIRecv emptyChoicesDecoder ("data: ping\ndata: p1\n".toList) =
      openAIRecv emptyChoicesDecoder ("data: p1\n".toList) ∧
    openAIRecv emptyChoicesDecoder ("data: p1\n".toList) =
      (.fragment ⟨"Hello", "", "", []⟩, []) ∧
    anthropicRecv emptyContentDecoder ("data: ec\n".toList) = (.nilResponse, []) := by
  refine ⟨?_, by decide, ?_⟩
  · exact decodeFragmentAsymmetry.1 emptyChoicesDecoder
      ("data: ping\ndata: p1\n".toList) ("data: ping\n".toList) ("data: p1\n".toList)
      ⟨"", [], "", none⟩ (by decide) (by decide) (by decide) (by decide) (by decide)
      rfl rfl
  · exact decodeFragmentAsymmetry.2 emptyContentDecoder
      ("data: ec\n".toList) ("data: ec\n".toList) []
      ⟨[], "m", "", none⟩ (by decide) (by decide) (by decide) (by decide) rfl rfl

/-- Decoder double for the Anthropic non-streaming body: `ok` is a
well-formed response, `err` carries an API error object, `empty` has an
empty content list and anything else is not JSON. -/
def anthropicBodyDecoder : List Char → Except String AnthropicResponse :=
  fun b =>
    if b = "ok".toList then .ok ⟨[⟨"Test response", "text"⟩], "claude", "stop", none⟩
    else if b = "err".toList then .ok ⟨[], "", "", some "Invalid API key"⟩
    else if b = "empty".toList then .ok ⟨[], "m", "", none⟩
    else .error "bad"

/-- Claim C10: `AnthropicClient.Complete` never inspects the HTTP
status code (the outcome depends only on the body), performs no retry
(it never produces an `HTTPError` nor a retries-exhausted error), and
its outcome is determined solely by decoding the body: decode failure,
API error object, empty content list, or success on the first content
block. -/
theorem anthropicCompleteSingleAttempt :
    (∀ (d : List Char → Except String AnthropicResponse) (s₁ s₂ : Nat) (body : List Char),
      anthropicComplete d (.ok ⟨s₁, body⟩) = anthropicComplete d (.ok ⟨s₂, body⟩)) ∧
    (∀ (d : List Char → Except String AnthropicResponse)
        (ex : Except String HTTPResponse) (s : Nat) (m : String),
      anthropicComplete d ex ≠ .error (.httpError s m)) ∧
    (∀ (d : List Char → Except String AnthropicResponse)
        (ex : Except String HTTPResponse) (e : CompletionError),
      anthropicComplete d ex ≠ .error (.maxRetriesExceeded e)) ∧
    (∀ (d : List Char → Except String AnthropicResponse) (st : Nat)
        (body : List Char) (e : String),
      d body = .error e →
      anthropicComplete d (.ok ⟨st, body⟩) = .error (.decodeError e)) ∧
    (∀ (d : List Char → Except String AnthropicResponse) (st : Nat)
        (body : List Char) (ar : AnthropicResponse) (m : String),
      d body = .ok ar → ar.error = some m →
      anthropicComplete d (.ok ⟨st, body⟩) =
        .error (.apiError ("anthropic API error: " ++ m))) ∧
    (∀ (d : List Char → Except String AnthropicResponse) (st : Nat)
        (body : List Char) (ar : AnthropicResponse),
      d body = .ok ar → ar.error = none → ar.content = [] →
      anthropicComplete d (.ok ⟨st, body⟩) = .error .emptyResult) ∧
    (∀ (d : List Char → Except String AnthropicResponse) (st : Nat)
        (body : List Char) (ar : AnthropicResponse)
        (cb : ContentBlock) (tail : List ContentBlock),
      d body = .ok ar → ar.error = none → ar.content = cb :: tail →
      anthropicComplete d (.ok ⟨st, body⟩) =
        .ok ⟨cb.text, ar.model, ar.stopReason, []⟩) := by
  refine ⟨fun d s₁ s₂ body => rfl, ?_, ?_, ?_, ?_, ?_, ?_⟩
  · intro d ex s m hcontra
    rcases ex with e | resp
    · simp [anthropicComplete] at hcontra
    · rcases hd : d resp.body with e | ar
      · simp [anthropicComplete, hd] at hcontra
      · rcases he : ar.error with _ | m2
        · rcases hcont : ar.content with _ | ⟨cb, tail⟩
          · simp [anthropicComplete, hd, he, hcont] at hcontra
          · simp [anthropicComplete, hd, he, hcont] at hcontra
        · simp [anthropicComplete, hd, he] at hcontra
  · intro d ex e hcontra
    rcases ex with e' | resp
    · simp [anthropicComplete] at hcontra
    · rcases hd : d resp.body with e' | ar
      · simp [anthropicComplete, hd] at hcontra
      · rcases he : ar.error with _ | m2
        · rcases hcont : ar.content with _ | ⟨cb, tail⟩
          · simp [anthropicComplete, hd, he, hcont] at hcontra
          · simp [anthropicComplete, hd, he, hcont] at hcontra
        · simp [anthropicComplete, hd, he] at hcontra
  · intro d st body e hd
    simp [anthropicComplete, hd]
  · intro d st body ar m hd he
    simp [anthropicComplete, hd, he]
  · intro d st body ar hd he hct
    simp [anthropicComplete, hd, he, hct]
  · intro d st body ar cb tail hd he hct
    simp [anthropicComplete, hd, he, hct]

/-- Claim C10 witness: the same body gives the same outcome under
status 401 and status 200, and the four body-determined outcomes are
exhibited on concrete bodies. -/
theorem anthropicCompleteSingleAttempt_witness :
    anthropicComplete anthropicBodyDecoder (.ok ⟨401, "ok".toList⟩) =
      anthropicComplete anthropicBodyDecoder (.ok ⟨200, "ok".toList⟩) ∧
    anthropicComplete anthropicBodyDecoder (.ok ⟨401, "err".toList⟩) =
      .error (.apiError ("anthropic API error: " ++ "Invalid API key")) ∧
    anthropicComplete anthropicBodyDecoder (.ok ⟨200, "empty".toList⟩) =
      .error .emptyResult ∧
    anthropicComplete anthropicBodyDecoder (.ok ⟨200, "bad".toList⟩) =
      .error (.decodeError "bad") ∧
    anthropicComplete anthropicBodyDecoder (.ok ⟨200, "ok".toList⟩) =
      .ok ⟨"Test response", "claude", "stop", []⟩ := by
  refine ⟨anthropicCompleteSingleAttempt.1 anthropicBodyDecoder 401 200 ("ok".toList),
    anthropicCompleteSingleAttempt.2.2.2.2.1 anthropicBodyDecoder 401 ("err".toList)
      ⟨[], "", "", some "Invalid API key"⟩ "Invalid API key" (by decide) rfl,
    anthropicCompleteSingleAttempt.2.2.2.2.2.1 anthropicBodyDecoder 200 ("empty".toList)
      ⟨[], "m", "", none⟩ (by decide) rfl rfl,
    anthropicCompleteSingleAttempt.2.2.2.1 anthropicBodyDecoder 200 ("bad".toList)
      "bad" (by decide),
    anthropicCompleteSingleAttempt.2.2.2.2.2.2 anthropicBodyDecoder 200 ("ok".toList)
      ⟨[⟨"Test response", "text"⟩], "claude", "stop", none⟩
      ⟨"Test response", "text"⟩ [] (by decide) rfl rfl⟩

end GoLLM
